import Mathlib

/-!
Shallow embedding of the lottery-scraper core (src/main.go): the ordered
text-normalization rules, the series detector, the result segmenter and
number extractor (parseLotteryNumbers), and both versions of the
ticket-matching engine (checkWinningTickets).

Strings are modelled as lists of characters (`Str`); Go maps keyed by
strings are modelled as association lists (`StrMap`) whose lookup returns
the Go zero value `[]` for absent keys.  A Go runtime panic (out-of-range
indexing such as `ticket[0]` on an empty string, or `SplitN(...)[1]` when
no separator is present) is modelled as `Option.none`.  Go's regexp
functions on the fixed patterns of the program are embedded by a small
leftmost-first (backtracking-preference) matching engine over a regex
syntax that covers exactly the constructs those patterns use.
-/

abbrev Str := List Char

abbrev StrMap := List (Str × List Str)

/-- Character class [A-Z], as used by the Go patterns. -/
def isUpperC (c : Char) : Bool := 'A' ≤ c && c ≤ 'Z'

/-- Character class \d = [0-9]. -/
def isDigitC (c : Char) : Bool := '0' ≤ c && c ≤ '9'

/-- Character class \s of Go regexp: [\t\n\f\r ]. -/
def isSpaceC (c : Char) : Bool :=
  c == ' ' || c == '\t' || c == '\n' || c == Char.ofNat 12 || c == '\r'

/-- The class matched by `.` in Go regexp: any character except newline. -/
def notNl (c : Char) : Bool := !(c == '\n')

/-- leadsWith sub s: sub occurs at the start of s. -/
def leadsWith : Str → Str → Bool
  | [], _ => true
  | _ :: _, [] => false
  | a :: as, b :: bs => a == b && leadsWith as bs

/-- containsStr s sub: sub occurs somewhere inside s (Go strings.Contains s sub). -/
def containsStr : Str → Str → Bool
  | [], sub => sub.isEmpty
  | c :: rest, sub => leadsWith sub (c :: rest) || containsStr rest sub

/-- Drop leading whitespace characters. -/
def dropLeadingSpace : Str → Str
  | [] => []
  | c :: rest => if isSpaceC c then dropLeadingSpace rest else c :: rest

/-- Go strings.TrimSpace (restricted to ASCII whitespace). -/
def trimSpace (s : Str) : Str :=
  dropLeadingSpace ((dropLeadingSpace s.reverse).reverse)

/-- Go strings.Split s (string of one char sep): n separators yield n+1 parts. -/
def splitOnChar (sep : Char) : Str → List Str
  | [] => [[]]
  | c :: rest =>
    if c == sep then [] :: splitOnChar sep rest
    else
      match splitOnChar sep rest with
      | [] => [[c]]
      | p :: ps => (c :: p) :: ps

/-- Split at the first occurrence of sep: Go strings.SplitN(s, sep, 2), with
`none` when sep does not occur (in which place the Go code indexes `[1]`
out of range and panics). -/
def splitFirst (sep : Char) : Str → Option (Str × Str)
  | [] => none
  | c :: rest =>
    if c == sep then some ([], rest)
    else
      match splitFirst sep rest with
      | none => none
      | some (a, b) => some (c :: a, b)

/-- The chunking loop of addNumericMatches: `for i := 0; i < len(num); i += 4`
slicing `num[i:min(i+4,len)]`. -/
def chunkSplit : Str → List Str
  | [] => []
  | [a] => [[a]]
  | [a, b] => [[a, b]]
  | [a, b, c] => [[a, b, c]]
  | a :: b :: c :: d :: rest => [a, b, c, d] :: chunkSplit rest

/-! ## A leftmost-first regex engine covering the program's fixed patterns -/

/-- Regex syntax: empty, one-character class, concatenation, alternation
(first alternative preferred), greedy star of a class, lazy star of a class.
All repetition in the program's patterns is over single-character classes. -/
inductive RE where
  | eps : RE
  | cls : (Char → Bool) → RE
  | cat : RE → RE → RE
  | alt : RE → RE → RE
  | manyG : (Char → Bool) → RE
  | manyL : (Char → Bool) → RE

/-- Length of the maximal leading run of characters satisfying p. -/
def pRun (p : Char → Bool) : Str → Nat
  | [] => 0
  | c :: rest => if p c then pRun p rest + 1 else 0

/-- Suffixes of s after consuming a run of p-characters, longest consumed
first (the backtracking preference order of a greedy star). -/
def greedyRests (p : Char → Bool) (s : Str) : List Str :=
  (List.range (pRun p s + 1)).map (fun i => s.drop (pRun p s - i))

/-- Anchored match at the start of s: the list of possible remainders, in
backtracking preference order.  The head is the remainder of the match the
Go (leftmost-first) engine commits to. -/
def runRE : RE → Str → List Str
  | .eps, s => [s]
  | .cls _, [] => []
  | .cls p, c :: rest => if p c then [rest] else []
  | .cat a b, s => (runRE a s).flatMap (fun r => runRE b r)
  | .alt a b, s => runRE a s ++ runRE b s
  | .manyG p, s => greedyRests p s
  | .manyL p, s => (greedyRests p s).reverse

/-- Scanning engine of FindAllString: successive leftmost matches, resuming
after each match; positions with no match advance by one character.  Fueled
structural recursion; one unit of fuel is spent per character consumed. -/
def findAllAux (re : RE) : Nat → Str → List Str
  | 0, _ => []
  | fuel + 1, s =>
    match (runRE re s).head? with
    | some r =>
      if r.length < s.length then
        s.take (s.length - r.length) :: findAllAux re fuel r
      else
        match s with
        | [] => []
        | _ :: rest => findAllAux re fuel rest
    | none =>
      match s with
      | [] => []
      | _ :: rest => findAllAux re fuel rest

/-- Go regexp FindAllString (the list of matched texts, left to right). -/
def findAllRE (re : RE) (s : Str) : List Str := findAllAux re (s.length + 1) s

/-- Scanning engine of ReplaceAllString, with a template applied to each
matched text. -/
def replaceAllAux (re : RE) (tmpl : Str → Str) : Nat → Str → Str
  | 0, s => s
  | fuel + 1, s =>
    match (runRE re s).head? with
    | some r =>
      if r.length < s.length then
        tmpl (s.take (s.length - r.length)) ++ replaceAllAux re tmpl fuel r
      else
        match s with
        | [] => s
        | c :: rest => c :: replaceAllAux re tmpl fuel rest
    | none =>
      match s with
      | [] => []
      | c :: rest => c :: replaceAllAux re tmpl fuel rest

/-- Go regexp ReplaceAllString. -/
def replaceAllRE (re : RE) (tmpl : Str → Str) (s : Str) : Str :=
  replaceAllAux re tmpl (s.length + 1) s

/-- Concatenation of a list of regexes. -/
def catRE (l : List RE) : RE := l.foldr RE.cat RE.eps

/-- Literal string as a regex. -/
def strRE (s : Str) : RE := catRE (s.map (fun c => RE.cls (fun x => x == c)))

/-! ## The fixed patterns of src/main.go -/

/-- Pattern string `KERALA.*?( 1st)` (headerPattern), used for the
string comparison in the removal loop of ProcessTextContent. -/
def headerPattern : Str := "KERALA.*?( 1st)".toList

def footerPattern : Str :=
  "Page \\d  IT Support : NIC Kerala  \\d{2}\\/\\d{2}\\/\\d{4} \\d{2}:\\d{2}:\\d{2}".toList

def endFooterPattern : Str := "The prize winners?.*".toList

def trailingWhiteSpacePattern : Str := "\\s{2}.\\s".toList

def bulletPattern : Str := "(?:\\d|\\d{2})\\)".toList

def podiumSplit : Str := "FOR +.* NUMBERS".toList

def lotteryTicketFull : Str := "[A-Z]{2} \\d{6}".toList

def locationString : Str := "\\(\\S+\\)".toList

def prizePositionString : Str := "((\\d(st|rd|nd|th))|Cons)".toList

def prizeString : Str := "(Prize Rs :\\d+/-)|(Prize-Rs :\\d+/-)".toList

def seriesSelection : Str := "(?:\\[)(.)".toList

/-- Regex `KERALA.*?( 1st)`. -/
def headerRE : RE := catRE [strRE "KERALA".toList, RE.manyL notNl, strRE " 1st".toList]

/-- Regex of footerPattern. -/
def footerRE : RE :=
  catRE [strRE "Page ".toList, RE.cls isDigitC, strRE "  IT Support : NIC Kerala  ".toList,
    RE.cls isDigitC, RE.cls isDigitC, RE.cls (fun c => c == '/'),
    RE.cls isDigitC, RE.cls isDigitC, RE.cls (fun c => c == '/'),
    RE.cls isDigitC, RE.cls isDigitC, RE.cls isDigitC, RE.cls isDigitC,
    RE.cls (fun c => c == ' '),
    RE.cls isDigitC, RE.cls isDigitC, RE.cls (fun c => c == ':'),
    RE.cls isDigitC, RE.cls isDigitC, RE.cls (fun c => c == ':'),
    RE.cls isDigitC, RE.cls isDigitC]

/-- Regex `The prize winners?.*`. -/
def endFooterRE : RE :=
  catRE [strRE "The prize winner".toList,
    RE.alt (RE.cls (fun c => c == 's')) RE.eps, RE.manyG notNl]

/-- Regex `\s{2}.\s`. -/
def trailingRE : RE :=
  catRE [RE.cls isSpaceC, RE.cls isSpaceC, RE.cls notNl, RE.cls isSpaceC]

/-- Regex `(?:\d|\d{2})\)` (single digit preferred, leftmost-first). -/
def bulletRE : RE :=
  RE.cat (RE.alt (RE.cls isDigitC) (RE.cat (RE.cls isDigitC) (RE.cls isDigitC)))
    (RE.cls (fun c => c == ')'))

/-- Regex `FOR +.* NUMBERS`. -/
def podiumRE : RE :=
  catRE [strRE "FOR".toList, RE.cls (fun c => c == ' '), RE.manyG (fun c => c == ' '),
    RE.manyG notNl, strRE " NUMBERS".toList]

/-- Regex `[A-Z]{2} \d{6}` (a full ticket number). -/
def ticketRE : RE :=
  catRE [RE.cls isUpperC, RE.cls isUpperC, RE.cls (fun c => c == ' '),
    RE.cls isDigitC, RE.cls isDigitC, RE.cls isDigitC,
    RE.cls isDigitC, RE.cls isDigitC, RE.cls isDigitC]

/-- Regex `\(\S+\)`. -/
def locationRE : RE :=
  catRE [RE.cls (fun c => c == '('), RE.cls (fun c => !(isSpaceC c)),
    RE.manyG (fun c => !(isSpaceC c)), RE.cls (fun c => c == ')')]

/-- Regex `((\d(st|rd|nd|th))|Cons)` (a prize-tier ordinal). -/
def posRE : RE :=
  RE.alt
    (RE.cat (RE.cls isDigitC)
      (RE.alt (strRE "st".toList)
        (RE.alt (strRE "rd".toList) (RE.alt (strRE "nd".toList) (strRE "th".toList)))))
    (strRE "Cons".toList)

/-- Regex of prizeString: the two accepted prize-amount spelling variants. -/
def prizeRE : RE :=
  RE.alt
    (catRE [strRE "Prize Rs :".toList, RE.cls isDigitC, RE.manyG isDigitC, strRE "/-".toList])
    (catRE [strRE "Prize-Rs :".toList, RE.cls isDigitC, RE.manyG isDigitC, strRE "/-".toList])

/-- Regex `(?:\[)(.)` (seriesSelection): a bracket followed by any
non-newline character; the capture is that character. -/
def seriesSelRE : RE := RE.cat (RE.cls (fun c => c == '[')) (RE.cls notNl)

/-- Regex `\[([A-Z])\]` (seriesRegex): a bracketed single uppercase letter. -/
def seriesRE : RE :=
  catRE [RE.cls (fun c => c == '['), RE.cls isUpperC, RE.cls (fun c => c == ']')]

/-- Regex `\[([A-Z]+ \d+)\]` (alphanumericRegex): a bracketed
letters-space-digits token. -/
def alnumRE : RE :=
  catRE [RE.cls (fun c => c == '['), RE.cls isUpperC, RE.manyG isUpperC,
    RE.cls (fun c => c == ' '), RE.cls isDigitC, RE.manyG isDigitC,
    RE.cls (fun c => c == ']')]

/-- Regex `\d+` (numbersRegex): a maximal run of digits. -/
def numbersRE : RE := RE.cat (RE.cls isDigitC) (RE.manyG isDigitC)

/-! ## ProcessTextContent: the ordered rule table -/

/-- The ordered removal table of ProcessTextContent, each entry paired with
its Go pattern string (the loop compares pattern strings to detect the
header rule). -/
def patternsToRemove : List (Str × RE) :=
  [(headerPattern, headerRE), (footerPattern, footerRE), (bulletPattern, bulletRE),
   (endFooterPattern, endFooterRE), (trailingWhiteSpacePattern, trailingRE),
   (locationString, locationRE), (podiumSplit, podiumRE), (prizeString, prizeRE)]

def emptyTmpl : Str → Str := fun _ => []

def oneStTmpl : Str → Str := fun _ => "1st".toList

/-- One iteration of the removal loop: the header pattern is first replaced
by the literal "1st", then every pattern (the header included) is replaced
by the empty string. -/
def removalStep (input : Str) (p : Str × RE) : Str :=
  let input1 := if p.1 = headerPattern then replaceAllRE p.2 oneStTmpl input else input
  replaceAllRE p.2 emptyTmpl input1

/-- The removal loop of ProcessTextContent (rules 1-8). -/
def applyRemovals (input : Str) : Str := patternsToRemove.foldl removalStep input

/-- Template ` < $0 > ` of rule 9. -/
def posTmpl : Str → Str := fun m => " < ".toList ++ m ++ " > ".toList

/-- Template `[$0]` of rule 10. -/
def tickTmpl : Str → Str := fun m => '[' :: (m ++ [']'])

/-- Tagging rules 9 (wrap prize-tier ordinals) and 10 (wrap full ticket
numbers), in that order. -/
def applyTagging (s : Str) : Str :=
  replaceAllRE ticketRE tickTmpl (replaceAllRE posRE posTmpl s)

/-- Rules 1-10 of ProcessTextContent, before the series detection step. -/
def normalizeText (input : Str) : Str := applyTagging (applyRemovals input)

/-- The series-detection tail of ProcessTextContent: the first submatch of
seriesSelection, prepended as a synthetic Series section
(fmt.Sprintf with format string `< Series > [%s] %s`). -/
def seriesDetect (input : Str) : Str :=
  match (findAllRE seriesSelRE input).head? with
  | some m => "< Series > [".toList ++ m.drop 1 ++ "] ".toList ++ input
  | none => input

/-- ProcessTextContent (the error branch of regexp.Compile never fires for
the fixed, valid pattern table, so the function is total). -/
def processTextContent (input : Str) : Str := seriesDetect (normalizeText input)

/-! ## parseLotteryNumbers: segmenter and number extractor -/

/-- The map key "Series". -/
def seriesKey : Str := "Series".toList

/-- Go map lookup with zero value: the value of the first entry whose key
equals k, or [] when absent. -/
def lookupM : StrMap → Str → List Str
  | [], _ => []
  | e :: rest, k => if e.1 == k then e.2 else lookupM rest k

/-- Go `m[k] = append(m[k], v)`: update the entry for k in place, or create
it when absent. -/
def insertAppend : StrMap → Str → Str → StrMap
  | [], k, v => [(k, [v])]
  | e :: rest, k, v =>
    if e.1 == k then (e.1, e.2 ++ [v]) :: rest
    else e :: insertAppend rest k v

/-- parsePositionAndNumbersPart: the text before the first `>` (trimmed) is
the position key, the text after it (trimmed) the numbers part.  When the
part has no `>`, Go indexes `SplitN(part, ">", 2)[1]` out of range and
panics: modelled as none. -/
def parsePositionAndNumbersPart (part : Str) : Option (Str × Str) :=
  match splitFirst '>' part with
  | none => none
  | some (before, after) => some (trimSpace before, trimSpace after)

/-- Submatch captures of seriesRegex: each match is `[L]`, the capture L. -/
def seriesCaptures (s : Str) : List Str :=
  (findAllRE seriesRE s).map (fun m => (m.drop 1).dropLast)

/-- Submatch captures of alphanumericRegex: each match is a bracketed
letters-space-digits token, the capture its interior. -/
def alnumCaptures (s : Str) : List Str :=
  (findAllRE alnumRE s).map (fun m => (m.drop 1).dropLast)

/-- addSeriesMatches: append every seriesRegex capture, left to right. -/
def addSeriesMatches (result : StrMap) (pos : Str) (numbersPart : Str) : StrMap :=
  (seriesCaptures numbersPart).foldl (fun r m => insertAppend r pos m) result

/-- addAlphanumericMatches: append every alphanumericRegex capture,
left to right. -/
def addAlphanumericMatches (result : StrMap) (pos : Str) (numbersPart : Str) : StrMap :=
  (alnumCaptures numbersPart).foldl (fun r m => insertAppend r pos m) result

/-- alphanumericRegex.ReplaceAllString(numbersPart, ""). -/
def removeAlnum (s : Str) : Str := replaceAllRE alnumRE emptyTmpl s

/-- addNumericMatches: remove the alphanumeric matches, then append the
4-character chunks of every maximal digit run, left to right. -/
def addNumericMatches (result : StrMap) (pos : Str) (numbersPart : Str) : StrMap :=
  (findAllRE numbersRE (removeAlnum numbersPart)).foldl
    (fun r num => (chunkSplit num).foldl (fun r c => insertAppend r pos c) r) result

/-- The body of parseLotteryNumbers' loop over the `<`-separated parts. -/
def parsePartsAux : List Str → StrMap → Option StrMap
  | [], result => some result
  | part :: rest, result =>
    let part := trimSpace part
    if part = [] then parsePartsAux rest result
    else
      match parsePositionAndNumbersPart part with
      | none => none
      | some (pos, numbersPart) =>
        parsePartsAux rest
          (addNumericMatches
            (addAlphanumericMatches
              (addSeriesMatches result pos numbersPart) pos numbersPart)
            pos numbersPart)

/-- parseLotteryNumbers: split the tagged text on `<`, then per fragment
recover the tier key and its winning-number fragments.  none models the
runtime panic on a non-empty fragment without `>`. -/
def parseLotteryNumbers (input : Str) : Option StrMap :=
  parsePartsAux (splitOnChar '<' input) []

/-! ## checkWinningTickets: both versions of the ticket matcher -/

/-- isWinningTicket (second version): some stored fragment is a substring
of the ticket. -/
def isWinningTicket (ticket : Str) : List Str → Bool
  | [] => false
  | num :: rest => containsStr ticket num || isWinningTicket ticket rest

/-- isMatchingSeries (second version):
`len(series) > 0 && series[0] == string(ticket[0])`.  The conjunction
short-circuits, so an empty ticket panics (none) only when the series list
is non-empty. -/
def isMatchingSeries : List Str → Str → Option Bool
  | [], _ => some false
  | _ :: _, [] => none
  | s0 :: _, c :: _ => some (s0 == [c])

/-- checkTicketForWinningPositions (second version): for every tier other
than Series whose fragment list matches, append the ticket to that tier's
winner list. -/
def checkTicketForWinningPositions (ticket : Str) : StrMap → StrMap → StrMap
  | [], winners => winners
  | e :: rest, winners =>
    checkTicketForWinningPositions ticket rest
      (if e.1 == seriesKey then winners
       else if isWinningTicket ticket e.2 then insertAppend winners e.1 ticket
       else winners)

/-- The ticket loop of the second checkWinningTickets, with the series
list hoisted out of the loop as in the Go code. -/
def checkW2Aux (results : StrMap) (series : List Str) : List Str → StrMap → Option StrMap
  | [], winners => some winners
  | ticket :: rest, winners =>
    match isMatchingSeries series ticket with
    | none => none
    | some b =>
      checkW2Aux results series rest
        (if b then checkTicketForWinningPositions ticket results winners else winners)

/-- checkWinningTickets, second (refactored) version. -/
def checkWinningTicketsV2 (results : StrMap) (tickets : List Str) : Option StrMap :=
  checkW2Aux results (lookupM results seriesKey) tickets []

/-- The inner fragment loop of the first checkWinningTickets: append the
ticket on the first matching fragment and break. -/
def numsLoopV1 (ticket pos : Str) (winners : StrMap) : List Str → StrMap
  | [] => winners
  | num :: rest =>
    if containsStr ticket num then insertAppend winners pos ticket
    else numsLoopV1 ticket pos winners rest

/-- The tier loop of the first checkWinningTickets. -/
def tierLoopV1 (ticket : Str) : StrMap → StrMap → StrMap
  | [], winners => winners
  | e :: rest, winners =>
    tierLoopV1 ticket rest
      (if e.1 == seriesKey then winners else numsLoopV1 ticket e.1 winners e.2)

/-- The ticket loop of the first checkWinningTickets:
`series := string(ticket[0])` is computed before the series test, so any
empty ticket panics (none). -/
def checkW1Aux (results : StrMap) : List Str → StrMap → Option StrMap
  | [], winners => some winners
  | ticket :: rest, winners =>
    match ticket with
    | [] => none
    | c :: _ =>
      let currentSeries := lookupM results seriesKey
      if currentSeries.isEmpty || !(currentSeries.head? == some [c]) then
        checkW1Aux results rest winners
      else
        checkW1Aux results rest (tierLoopV1 ticket results winners)

/-- checkWinningTickets, first (original) version. -/
def checkWinningTicketsV1 (results : StrMap) (tickets : List Str) : Option StrMap :=
  checkW1Aux results tickets []

/-! ## Specification-side predicates used to state the claims -/

/-- The series gate as a total Boolean on non-empty tickets: the first
stored Series fragment equals the one-character string of the ticket's
first character. -/
def passesSeries (series : List Str) (ticket : Str) : Bool :=
  match series, ticket with
  | [], _ => false
  | _, [] => false
  | s0 :: _, c :: _ => s0 == [c]

/-- tierHitB results pos ticket: the matcher appends ticket to tier pos
(pos is a stored non-Series tier and some of its fragments is contained in
the ticket). -/
def tierHitB (results : StrMap) (pos ticket : Str) : Bool :=
  !(pos == seriesKey) && results.any (fun e => e.1 == pos)
    && isWinningTicket ticket (lookupM results pos)

/-- The first character standing right after a `[` (skipping brackets
followed by a newline, which `.` does not match), as the claim about the
series detector characterizes it. -/
def firstBracketChar : Str → Option Char
  | [] => none
  | [_] => none
  | a :: b :: rest =>
    if a == '[' && notNl b then some b
    else firstBracketChar (b :: rest)

/-- The text contains a bracketed single-uppercase-letter token `[L]`
(the claim's notion of a series token). -/
def hasBracketSingleUpper : Str → Bool
  | [] => false
  | [_] => false
  | [_, _] => false
  | a :: b :: c :: rest =>
    (a == '[' && isUpperC b && c == ']') || hasBracketSingleUpper (b :: c :: rest)

/-- Concrete results map used to instantiate the series-gate theorem. -/
def c1Results : StrMap := [("Series".toList, ["A".toList]), ("1st".toList, ["3456".toList])]

/-- Concrete ticket batch used to instantiate the series-gate theorem. -/
def c1Tickets : List Str := ["AB123456".toList]

/-- Concrete results map with two fragments that both match one ticket. -/
def c7Results : StrMap :=
  [("Series".toList, ["A".toList]), ("2nd".toList, ["3456".toList, "123456".toList])]

/-- Concrete ticket batch with a duplicate submission. -/
def c7Tickets : List Str := ["AB123456".toList, "AB123456".toList]

/-! ## Helper lemmas -/

theorem lookupM_insertAppend_self (w : StrMap) (k v : Str) :
    lookupM (insertAppend w k v) k = lookupM w k ++ [v] := by
  induction w with
  | nil => simp [insertAppend, lookupM]
  | cons e rest ih =>
    by_cases he : e.1 = k
    · simp [insertAppend, lookupM, he]
    · simp [insertAppend, lookupM, he, ih]

theorem lookupM_insertAppend_ne (w : StrMap) (k v q : Str) (h : q ≠ k) :
    lookupM (insertAppend w k v) q = lookupM w q := by
  have hkq : ¬(k = q) := fun hh => h hh.symm
  induction w with
  | nil => simp [insertAppend, lookupM, hkq]
  | cons e rest ih =>
    by_cases he : e.1 = k
    · simp [insertAppend, lookupM, he, hkq]
    · by_cases hq : e.1 = q
      · simp [insertAppend, lookupM, he, hq, hkq, h, lookupM]
      · simp [insertAppend, lookupM, he, hq, ih]

theorem lookupM_foldl_insertAppend (ms : List Str) (w : StrMap) (k : Str) :
    lookupM (ms.foldl (fun r m => insertAppend r k m) w) k = lookupM w k ++ ms := by
  induction ms generalizing w with
  | nil => simp
  | cons m rest ih => simp [ih, lookupM_insertAppend_self]

theorem lookupM_foldl_chunks (nums : List Str) (w : StrMap) (k : Str) :
    lookupM (nums.foldl (fun r num => (chunkSplit num).foldl
        (fun r c => insertAppend r k c) r) w) k
      = lookupM w k ++ (nums.map chunkSplit).flatten := by
  induction nums generalizing w with
  | nil => simp
  | cons num rest ih => simp [ih, lookupM_foldl_insertAppend, List.append_assoc]

theorem chunkSplit_flatten (R : Str) : (chunkSplit R).flatten = R := by
  induction R using chunkSplit.induct <;> simp_all [chunkSplit]

theorem chunkSplit_length (R : Str) : (chunkSplit R).length = (R.length + 3) / 4 := by
  induction R using chunkSplit.induct
  all_goals simp_all [chunkSplit]
  all_goals omega

theorem chunkSplit_mem_len (R c : Str) (h : c ∈ chunkSplit R) :
    1 ≤ c.length ∧ c.length ≤ 4 := by
  induction R using chunkSplit.induct with
  | case1 => simp [chunkSplit] at h
  | case2 a => simp [chunkSplit] at h; simp [h]
  | case3 a b => simp [chunkSplit] at h; simp [h]
  | case4 a b c' => simp [chunkSplit] at h; simp [h]
  | case5 a b c' d rest ih =>
    simp [chunkSplit] at h
    rcases h with h | h
    · simp [h]
    · exact ih h

theorem chunkSplit_eq_nil (R : Str) : chunkSplit R = [] ↔ R = [] := by
  cases R using chunkSplit.induct
  all_goals simp [chunkSplit]

theorem chunkSplit_dropLast_len (R c : Str) (h : c ∈ (chunkSplit R).dropLast) :
    c.length = 4 := by
  induction R using chunkSplit.induct with
  | case1 => simp [chunkSplit] at h
  | case2 a => simp [chunkSplit] at h
  | case3 a b => simp [chunkSplit] at h
  | case4 a b c' => simp [chunkSplit] at h
  | case5 a b c' d rest ih =>
    by_cases hr : rest = []
    · subst hr; simp [chunkSplit] at h
    · have hne : chunkSplit rest ≠ [] := by
        simpa [chunkSplit_eq_nil] using hr
      rw [chunkSplit] at h
      rcases List.exists_cons_of_ne_nil hne with ⟨y, ys, hy⟩
      rw [hy] at h
      simp [List.dropLast] at h
      rcases h with h | h
      · simp [h]
      · exact ih (by rw [hy]; simpa [List.dropLast] using h)

theorem numsLoopV1_eq (t pos : Str) (w : StrMap) (nums : List Str) :
    numsLoopV1 t pos w nums =
      if isWinningTicket t nums then insertAppend w pos t else w := by
  induction nums with
  | nil => simp [numsLoopV1, isWinningTicket]
  | cons num rest ih =>
    by_cases hc : containsStr t num
    · simp [numsLoopV1, isWinningTicket, hc]
    · simp [numsLoopV1, isWinningTicket, hc, ih]

theorem lookupM_eq_nil (R : StrMap) (p : Str) (h : ∀ e ∈ R, e.1 ≠ p) :
    lookupM R p = [] := by
  induction R with
  | nil => rfl
  | cons e rest ih =>
    have he : e.1 ≠ p := h e (by simp)
    simp [lookupM, he]
    exact ih (fun f hf => h f (by simp [hf]))

theorem ctfw_lookup_nokey (t : Str) (R : StrMap) (w : StrMap) (p : Str)
    (h : ∀ e ∈ R, e.1 ≠ p) :
    lookupM (checkTicketForWinningPositions t R w) p = lookupM w p := by
  induction R generalizing w with
  | nil => rfl
  | cons e rest ih =>
    have he : e.1 ≠ p := h e (by simp)
    rw [checkTicketForWinningPositions,
      ih _ (fun f hf => h f (by simp [hf]))]
    by_cases hs : (e.1 == seriesKey) = true
    · simp [hs]
    · by_cases hw : isWinningTicket t e.2
      · simp [hs, hw, lookupM_insertAppend_ne _ _ _ _ (fun hh => he hh.symm)]
      · simp [hs, hw]

theorem ctfw_lookup (t : Str) (R : StrMap) (w : StrMap) (p : Str)
    (hN : (R.map Prod.fst).Nodup) :
    lookupM (checkTicketForWinningPositions t R w) p =
      lookupM w p ++ (if tierHitB R p t then [t] else []) := by
  induction R generalizing w with
  | nil => simp [checkTicketForWinningPositions, tierHitB]
  | cons e rest ih =>
    rw [List.map_cons, List.nodup_cons] at hN
    obtain ⟨hnotin, hN2⟩ := hN
    by_cases hep : e.1 = p
    · have hrest : ∀ f ∈ rest, f.1 ≠ p := by
        intro f hf hfp
        exact hnotin (hep ▸ hfp ▸ List.mem_map_of_mem Prod.fst hf)
      rw [checkTicketForWinningPositions, ctfw_lookup_nokey _ _ _ _ hrest]
      have hany : ((e :: rest).any fun f => f.1 == p) = true := by
        simp [List.any_cons, hep]
      have hlook : lookupM (e :: rest) p = e.2 := by simp [lookupM, hep]
      by_cases hs : (e.1 == seriesKey) = true
      · have hpk : (p == seriesKey) = true := by
          rw [← hep]; exact hs
        simp [hs, tierHitB, hpk]
      · have hpk : (p == seriesKey) = false := by
          rw [← hep]; simp at hs; simp [hs]
        by_cases hw : isWinningTicket t e.2
        · simp [hs, hw, tierHitB, hpk, hany, hlook, hep,
            lookupM_insertAppend_self]
        · simp [hs, hw, tierHitB, hpk, hany, hlook, hep]
    · have hb : (e.1 == p) = false := by simp [hep]
      have hhit : tierHitB (e :: rest) p t = tierHitB rest p t := by
        simp [tierHitB, List.any_cons, hb, lookupM]
      rw [checkTicketForWinningPositions, ih _ hN2, hhit]
      by_cases hs : (e.1 == seriesKey) = true
      · simp [hs]
      · by_cases hw : isWinningTicket t e.2
        · simp [hs, hw, lookupM_insertAppend_ne _ _ _ _ (fun hh => hep hh.symm)]
        · simp [hs, hw]

theorem isMatchingSeries_eq (series : List Str) (t : Str) (ht : t ≠ []) :
    isMatchingSeries series t = some (passesSeries series t) := by
  cases series with
  | nil => simp [isMatchingSeries, passesSeries]
  | cons s0 ss =>
    cases t with
    | nil => exact absurd rfl ht
    | cons c t' => simp [isMatchingSeries, passesSeries]

theorem checkW2Aux_lookup (R : StrMap) (series : List Str) (T : List Str)
    (w : StrMap) (hT : ∀ t ∈ T, t ≠ []) (hN : (R.map Prod.fst).Nodup) :
    ∃ W, checkW2Aux R series T w = some W ∧
      ∀ p, lookupM W p = lookupM w p
        ++ T.filter (fun t => passesSeries series t && tierHitB R p t) := by
  induction T generalizing w with
  | nil => exact ⟨w, rfl, fun p => by simp⟩
  | cons t rest ih =>
    have ht : t ≠ [] := hT t (by simp)
    have hrest : ∀ u ∈ rest, u ≠ [] := fun u hu => hT u (by simp [hu])
    rw [checkW2Aux, isMatchingSeries_eq series t ht]
    by_cases hb : passesSeries series t = true
    · obtain ⟨W, hW, hl⟩ := ih (checkTicketForWinningPositions t R w) hrest
      refine ⟨W, by simpa [hb] using hW, fun p => ?_⟩
      rw [hl p, ctfw_lookup t R w p hN]
      by_cases hhit : tierHitB R p t = true
      · simp [List.filter_cons, hb, hhit]
      · simp [List.filter_cons, hb, hhit]
    · obtain ⟨W, hW, hl⟩ := ih w hrest
      refine ⟨W, by simpa [hb] using hW, fun p => ?_⟩
      rw [hl p]
      simp [List.filter_cons, hb]

theorem checkW2_lookup (R : StrMap) (T : List Str)
    (hT : ∀ t ∈ T, t ≠ []) (hN : (R.map Prod.fst).Nodup) :
    ∃ W, checkWinningTicketsV2 R T = some W ∧
      ∀ p, lookupM W p = T.filter
        (fun t => passesSeries (lookupM R seriesKey) t && tierHitB R p t) := by
  obtain ⟨W, hW, hl⟩ := checkW2Aux_lookup R (lookupM R seriesKey) T [] hT hN
  exact ⟨W, hW, fun p => by simpa [lookupM] using hl p⟩

theorem tierLoopV1_eq (t : Str) (R w : StrMap) :
    tierLoopV1 t R w = checkTicketForWinningPositions t R w := by
  induction R generalizing w with
  | nil => rfl
  | cons e rest ih =>
    rw [tierLoopV1, checkTicketForWinningPositions, numsLoopV1_eq, ih]

theorem checkW1Aux_eq (R : StrMap) (T : List Str) (w : StrMap)
    (hT : ∀ t ∈ T, t ≠ []) :
    checkW1Aux R T w = checkW2Aux R (lookupM R seriesKey) T w := by
  induction T generalizing w with
  | nil => rfl
  | cons t rest ih =>
    have ht : t ≠ [] := hT t (by simp)
    have hrest : ∀ u ∈ rest, u ≠ [] := fun u hu => hT u (by simp [hu])
    cases t with
    | nil => exact absurd rfl ht
    | cons c t' =>
      rw [checkW1Aux, checkW2Aux, isMatchingSeries_eq _ _ ht]
      cases hs : lookupM R seriesKey with
      | nil => simp [passesSeries, ih _ hrest, hs]
      | cons s0 ss =>
        by_cases hb : (s0 == [c]) = true
        · simp [passesSeries, hb, ih _ hrest, tierLoopV1_eq]
          rw [hs]
        · simp [passesSeries, hb, ih _ hrest]
          rw [hs]

theorem count_filter_eq (f : Str → Bool) (t : Str) (T : List Str) :
    List.count t (T.filter f) = if f t then List.count t T else 0 := by
  induction T with
  | nil => simp
  | cons a rest ih =>
    by_cases ha : a = t
    · subst ha
      by_cases hf : f a = true
      · simp [List.filter_cons, hf, List.count_cons, ih]
      · simp [List.filter_cons, hf, List.count_cons, ih]
    · have hne : ¬(a == t) = true := by simp [ha]
      by_cases hf : f a = true
      · simp [List.filter_cons, hf, List.count_cons, hne, ih]
      · simp [List.filter_cons, hf, List.count_cons, hne, ih]

theorem runRE_seriesSel (s : Str) :
    runRE seriesSelRE s =
      match s with
      | a :: b :: rest => if a == '[' && notNl b then [rest] else []
      | _ => [] := by
  match s with
  | [] => simp [seriesSelRE, runRE]
  | [a] =>
    by_cases ha : (a == '[') = true
    · simp [seriesSelRE, runRE, ha]
    · simp [seriesSelRE, runRE, ha]
  | a :: b :: rest =>
    by_cases ha : (a == '[') = true
    · by_cases hb : notNl b = true
      · simp [seriesSelRE, runRE, ha, hb]
      · simp [seriesSelRE, runRE, ha, hb]
    · simp [seriesSelRE, runRE, ha]

theorem findAllAux_seriesSel_nil (F : Nat) :
    findAllAux seriesSelRE (F + 1) [] = [] := by
  simp [findAllAux, runRE_seriesSel]

theorem findAllAux_seriesSel_one (F : Nat) (a : Char) :
    findAllAux seriesSelRE (F + 1) [a] = findAllAux seriesSelRE F [] := by
  simp [findAllAux, runRE_seriesSel]

theorem findAllAux_seriesSel_hit (F : Nat) (a b : Char) (rest : Str)
    (hab : (a == '[' && notNl b) = true) :
    findAllAux seriesSelRE (F + 1) (a :: b :: rest)
      = [a, b] :: findAllAux seriesSelRE F rest := by
  have hrun : (runRE seriesSelRE (a :: b :: rest)).head? = some rest := by
    rw [runRE_seriesSel]
    simp [hab]
  have hlt : rest.length < (a :: b :: rest).length := by
    simp only [List.length_cons]
    omega
  have h2 : (a :: b :: rest).length - rest.length = 2 := by
    simp only [List.length_cons]
    omega
  rw [findAllAux, hrun]
  simp only [hlt, if_pos, h2]
  simp [List.take]

theorem findAllAux_seriesSel_miss (F : Nat) (a b : Char) (rest : Str)
    (hab : (a == '[' && notNl b) = false) :
    findAllAux seriesSelRE (F + 1) (a :: b :: rest)
      = findAllAux seriesSelRE F (b :: rest) := by
  have hrun : (runRE seriesSelRE (a :: b :: rest)).head? = none := by
    rw [runRE_seriesSel]
    simp [hab]
  rw [findAllAux, hrun]

theorem findAllAux_seriesSel (fuel : Nat) (s : Str) (hf : s.length < fuel) :
    (findAllAux seriesSelRE fuel s).head? =
      (firstBracketChar s).map (fun c => ['[', c]) := by
  induction fuel generalizing s with
  | zero => omega
  | succ F ih =>
    match s with
    | [] => simp [findAllAux_seriesSel_nil, firstBracketChar]
    | [a] =>
      have h0 : ([] : Str).length < F := by
        simp only [List.length_singleton] at hf
        simp only [List.length_nil]
        omega
      rw [findAllAux_seriesSel_one, ih [] h0]
      simp [firstBracketChar]
    | a :: b :: rest =>
      by_cases hab : (a == '[' && notNl b) = true
      · have ha : a = '[' := eq_of_beq ((Bool.and_eq_true _ _).mp hab).1
        rw [findAllAux_seriesSel_hit F a b rest hab]
        rw [firstBracketChar, if_pos hab, ha]
        simp
      · have hlen : (b :: rest).length < F := by
          simp only [List.length_cons] at hf ⊢
          omega
        rw [findAllAux_seriesSel_miss F a b rest (by simpa using hab),
          ih (b :: rest) hlen, firstBracketChar, if_neg (by simp [hab])]

/-! ## Claim theorems -/

/-- C2: for every maximal digit run R found by step (c) in a fragment's
remainder after bracketed ticket numbers are removed, addNumericMatches
appends per run exactly the chunkSplit chunks, there are ceil(L/4) of them,
every chunk except possibly the last has length 4, every chunk has length
1 to 4, and their concatenation in order is R. -/
theorem numericRun_chunk_shape (numbersPart R : Str)
    (_h : R ∈ findAllRE numbersRE (removeAlnum numbersPart)) :
    (∀ result pos, lookupM (addNumericMatches result pos numbersPart) pos
        = lookupM result pos
          ++ ((findAllRE numbersRE (removeAlnum numbersPart)).map chunkSplit).flatten)
    ∧ (chunkSplit R).length = (R.length + 3) / 4
    ∧ (∀ c ∈ (chunkSplit R).dropLast, c.length = 4)
    ∧ (∀ c ∈ chunkSplit R, 1 ≤ c.length ∧ c.length ≤ 4)
    ∧ (chunkSplit R).flatten = R :=
  ⟨fun result pos => by rw [addNumericMatches, lookupM_foldl_chunks],
   chunkSplit_length R,
   fun c hc => chunkSplit_dropLast_len R c hc,
   fun c hc => chunkSplit_mem_len R c hc,
   chunkSplit_flatten R⟩

/-- Witness for C2 at the concrete run "123456789" (chunks 1234, 5678, 9). -/
theorem numericRun_chunk_shape_witness :
    ("123456789".toList ∈ findAllRE numbersRE (removeAlnum "123456789".toList))
    ∧ ((∀ result pos,
          lookupM (addNumericMatches result pos "123456789".toList) pos
            = lookupM result pos
              ++ ((findAllRE numbersRE (removeAlnum "123456789".toList)).map
                    chunkSplit).flatten)
        ∧ (chunkSplit "123456789".toList).length = ("123456789".toList.length + 3) / 4
        ∧ (∀ c ∈ (chunkSplit "123456789".toList).dropLast, c.length = 4)
        ∧ (∀ c ∈ chunkSplit "123456789".toList, 1 ≤ c.length ∧ c.length ≤ 4)
        ∧ (chunkSplit "123456789".toList).flatten = "123456789".toList) :=
  ⟨by decide, numericRun_chunk_shape "123456789".toList "123456789".toList (by decide)⟩

/-- C3: per fragment remainder, the extractor appends to the tier's list
first the seriesRegex captures left to right, then the alphanumericRegex
captures left to right, then the 4-chunks of the maximal digit runs of the
remainder with the alphanumeric matches removed, left to right. -/
theorem extractor_append_order (result : StrMap) (pos numbersPart : Str) :
    lookupM (addNumericMatches (addAlphanumericMatches
        (addSeriesMatches result pos numbersPart) pos numbersPart) pos numbersPart) pos
      = lookupM result pos ++ seriesCaptures numbersPart ++ alnumCaptures numbersPart
        ++ ((findAllRE numbersRE (removeAlnum numbersPart)).map chunkSplit).flatten := by
  rw [addNumericMatches, lookupM_foldl_chunks, addAlphanumericMatches,
    lookupM_foldl_insertAppend, addSeriesMatches, lookupM_foldl_insertAppend]

/-- C4: a non-empty trimmed fragment without a closing marker makes
parsePositionAndNumbersPart (and the whole parseLotteryNumbers run) abort;
with the marker present, the text before the first one (trimmed) is the
tier key and the rest (trimmed) the numbers part. -/
theorem segmenter_noGt_aborts :
    parsePositionAndNumbersPart "abc".toList = none
    ∧ parseLotteryNumbers "<abc".toList = none
    ∧ parsePositionAndNumbersPart "1st > [AB 123456]".toList
        = some ("1st".toList, "[AB 123456]".toList) := by decide

/-- C5: an empty ticket in a batch aborts the whole second-version matcher
run (the Go code panics on ticket[0]); the same batch without the empty
ticket produces a winner, so the remaining tickets were not processed. -/
theorem matcher_emptyTicket_aborts :
    checkWinningTicketsV2
        [("Series".toList, ["A".toList]), ("1st".toList, ["123456".toList])]
        ["".toList, "AB123456".toList] = none
    ∧ checkWinningTicketsV2
        [("Series".toList, ["A".toList]), ("1st".toList, ["123456".toList])]
        ["AB123456".toList] = some [("1st".toList, ["AB123456".toList])] := by decide

/-- C8: the ten normalization rules are applied in the stated order: the
eight removals first (the header rule replacing by the literal "1st" and
then erasing any remaining header matches), then the two tagging rules. -/
theorem normalize_rule_order (input : Str) :
    normalizeText input =
      replaceAllRE ticketRE tickTmpl
        (replaceAllRE posRE posTmpl
          (replaceAllRE prizeRE emptyTmpl
            (replaceAllRE podiumRE emptyTmpl
              (replaceAllRE locationRE emptyTmpl
                (replaceAllRE trailingRE emptyTmpl
                  (replaceAllRE endFooterRE emptyTmpl
                    (replaceAllRE bulletRE emptyTmpl
                      (replaceAllRE footerRE emptyTmpl
                        (replaceAllRE headerRE emptyTmpl
                          (replaceAllRE headerRE oneStTmpl input)))))))))) := by
  have hf : ¬(footerPattern = headerPattern) := by decide
  have hb : ¬(bulletPattern = headerPattern) := by decide
  have he : ¬(endFooterPattern = headerPattern) := by decide
  have ht : ¬(trailingWhiteSpacePattern = headerPattern) := by decide
  have hl : ¬(locationString = headerPattern) := by decide
  have hp : ¬(podiumSplit = headerPattern) := by decide
  have hz : ¬(prizeString = headerPattern) := by decide
  simp only [normalizeText, applyRemovals, patternsToRemove, List.foldl_cons,
    List.foldl_nil, removalStep, applyTagging]
  simp [hf, hb, he, ht, hl, hp, hz]

/-- C9 (amended): re-running tagging rules 9 and 10 on their own output
increases bracketing depth: a tagged ticket token is double-wrapped and a
tagged tier marker gains a nested marker. -/
theorem tagging_rerun_double_wraps :
    applyTagging (applyTagging "AB 123456".toList) = "[[AB 123456]]".toList
    ∧ applyTagging (applyTagging " 1st ".toList) = "  <  < 1st >  >  ".toList := by
  decide

/-- Counterexample for C9 as stated: "[AB 123456]" is the tagging output of
rule 10 on "AB 123456", yet re-running the tagging rules on it produces a
string containing "[[". -/
theorem tagging_not_idempotent_cex :
    applyTagging "AB 123456".toList = "[AB 123456]".toList
    ∧ containsStr (applyTagging "[AB 123456]".toList) "[[".toList = true := by
  decide

/-- C10 (amended): on results maps and ticket lists whose tickets are all
non-empty, the original and the refactored checkWinningTickets return
identical winner maps (same tier keys, same per-tier lists in order). -/
theorem matcher_v1_eq_v2 (R : StrMap) (T : List Str) (hT : ∀ t ∈ T, t ≠ []) :
    checkWinningTicketsV1 R T = checkWinningTicketsV2 R T := by
  rw [checkWinningTicketsV1, checkWinningTicketsV2, checkW1Aux_eq R T [] hT]

/-- Witness for C10 on a concrete results map and batch. -/
theorem matcher_v1_eq_v2_witness :
    (∀ t ∈ ["AB123456".toList, "BX999999".toList], t ≠ [])
    ∧ checkWinningTicketsV1
        [("Series".toList, ["A".toList]), ("1st".toList, ["3456".toList])]
        ["AB123456".toList, "BX999999".toList]
      = checkWinningTicketsV2
        [("Series".toList, ["A".toList]), ("1st".toList, ["3456".toList])]
        ["AB123456".toList, "BX999999".toList] :=
  ⟨by decide, matcher_v1_eq_v2 _ _ (by decide)⟩

/-- Counterexample for C10 as stated: on the empty results map and a batch
holding one empty ticket, the first version aborts (Go panics on ticket[0])
while the second returns an empty winner map. -/
theorem matcher_v1_v2_differ_cex :
    checkWinningTicketsV1 [] [[]] = none
    ∧ checkWinningTicketsV2 [] [[]] = some []
    ∧ checkWinningTicketsV1 [] [[]] ≠ checkWinningTicketsV2 [] [[]] := by decide

/-- C6 (amended): the series detector prepends a synthetic Series section
exactly when some bracket is followed by a (non-newline) character; the
letter used is the first such character, whatever token the bracket opens,
and the prepended text is built by the `< Series > [%s] %s` format. -/
theorem seriesDetect_firstBracketChar (s : Str) :
    seriesDetect s =
      match firstBracketChar s with
      | none => s
      | some c => "< Series > [".toList ++ [c] ++ "] ".toList ++ s := by
  rw [seriesDetect, findAllRE, findAllAux_seriesSel (s.length + 1) s (by omega)]
  cases firstBracketChar s with
  | none => rfl
  | some c => rfl

/-- Counterexample for C6 as stated: the text "[AB 123456]" holds no
bracketed single-uppercase-letter token, yet the series detector does not
leave it unchanged: it prepends a Series section built from the first
character after the first bracket, the A of the ticket number. -/
theorem seriesDetect_letterOnly_cex :
    hasBracketSingleUpper "[AB 123456]".toList = false
    ∧ seriesDetect "[AB 123456]".toList = "< Series > [A] [AB 123456]".toList
    ∧ seriesDetect "[AB 123456]".toList ≠ "[AB 123456]".toList := by decide

/-- C7 (amended): per tier, a ticket is appended at most once per
occurrence in the submitted batch - exactly once per occurrence when the
series gate passes and at least one fragment matches, however many
fragments match - and zero times otherwise. -/
theorem matcher_once_per_ticket (R : StrMap) (T : List Str)
    (hT : ∀ t ∈ T, t ≠ []) (hN : (R.map Prod.fst).Nodup) :
    ∃ W, checkWinningTicketsV2 R T = some W ∧
      ∀ p t, List.count t (lookupM W p) =
        if passesSeries (lookupM R seriesKey) t && tierHitB R p t then
          List.count t T
        else 0 := by
  obtain ⟨W, hW, hl⟩ := checkW2_lookup R T hT hN
  exact ⟨W, hW, fun p t => by rw [hl p, count_filter_eq]⟩

/-- Witness for C7 on a concrete map whose tier stores two fragments that
both match a twice-submitted ticket. -/
theorem matcher_once_per_ticket_witness :
    (∀ t ∈ c7Tickets, t ≠ []) ∧ ((c7Results.map Prod.fst).Nodup)
    ∧ (∃ W, checkWinningTicketsV2 c7Results c7Tickets = some W ∧
        ∀ p t, List.count t (lookupM W p) =
          if passesSeries (lookupM c7Results seriesKey) t && tierHitB c7Results p t then
            List.count t c7Tickets
          else 0) :=
  ⟨by decide, by decide, matcher_once_per_ticket c7Results c7Tickets (by decide) (by decide)⟩

/-- Counterexample for C7 as stated: two distinct stored fragments of tier
"1st" are each substrings of the ticket, yet the tier's winner list holds
the ticket once, not once per matching fragment. -/
theorem matcher_multiFragment_cex :
    containsStr "AB123456".toList "3456".toList = true
    ∧ containsStr "AB123456".toList "123456".toList = true
    ∧ checkWinningTicketsV2
        [("Series".toList, ["A".toList]), ("1st".toList, ["3456".toList, "123456".toList])]
        ["AB123456".toList]
      = some [("1st".toList, ["AB123456".toList])] := by decide

/-- C1 (amended): with every ticket non-empty and map keys unique, the
second-version matcher excludes a ticket from every tier when the Series
entry is absent, empty, or its first fragment differs from the
one-character string of the ticket's first character; otherwise, for every
tier other than Series, the ticket is in that tier's winner list exactly
when some stored fragment of that tier is a substring of the ticket. -/
theorem matcher_seriesGate_matchIff (R : StrMap) (T : List Str)
    (hT : ∀ t ∈ T, t ≠ []) (hN : (R.map Prod.fst).Nodup) :
    ∃ W, checkWinningTicketsV2 R T = some W ∧
      ∀ t ∈ T, ∀ c : Char, t.head? = some c →
        ((lookupM R seriesKey).head? ≠ some [c] → ∀ p, t ∉ lookupM W p)
        ∧ ((lookupM R seriesKey).head? = some [c] → ∀ p, p ≠ seriesKey →
            (t ∈ lookupM W p ↔ isWinningTicket t (lookupM R p) = true)) := by
  obtain ⟨W, hW, hl⟩ := checkW2_lookup R T hT hN
  refine ⟨W, hW, fun t ht c hc => ⟨fun hne p hmem => ?_, fun heq p hp => ?_⟩⟩
  · rw [hl p] at hmem
    have hpass : passesSeries (lookupM R seriesKey) t = true :=
      ((Bool.and_eq_true _ _).mp (List.mem_filter.mp hmem).2).1
    apply hne
    cases t with
    | nil => simp at hc
    | cons c0 t' =>
      have hc0 : c0 = c := by simpa using hc
      cases hsr : lookupM R seriesKey with
      | nil => rw [hsr] at hpass; simp [passesSeries] at hpass
      | cons s0 ss =>
        rw [hsr] at hpass
        simp only [passesSeries] at hpass
        have hs0 : s0 = [c0] := eq_of_beq hpass
        simp [hs0, hc0]
  · have hpass : passesSeries (lookupM R seriesKey) t = true := by
      cases t with
      | nil => simp at hc
      | cons c0 t' =>
        have hc0 : c0 = c := by simpa using hc
        cases hsr : lookupM R seriesKey with
        | nil => rw [hsr] at heq; simp at heq
        | cons s0 ss =>
          rw [hsr] at heq
          have hs0 : s0 = [c] := by simpa using heq
          simp [passesSeries, hs0, hc0]
    rw [hl p]
    constructor
    · intro hmem
      have hhit : tierHitB R p t = true :=
        ((Bool.and_eq_true _ _).mp (List.mem_filter.mp hmem).2).2
      simp only [tierHitB, Bool.and_eq_true] at hhit
      exact hhit.2
    · intro hwin
      apply List.mem_filter.mpr
      refine ⟨ht, ?_⟩
      have hany : (R.any fun e => e.1 == p) = true := by
        by_contra hany
        have hnone : ∀ e ∈ R, e.1 ≠ p := by
          intro e he hep
          exact hany (List.any_eq_true.mpr ⟨e, he, by simp [hep]⟩)
        rw [lookupM_eq_nil R p hnone] at hwin
        simp [isWinningTicket] at hwin
      have hps : (p == seriesKey) = false := by simp [hp]
      rw [Bool.and_eq_true]
      exact ⟨hpass, by simp [tierHitB, hps, hany, hwin]⟩

/-- Witness for C1 on a concrete results map and a single winning ticket. -/
theorem matcher_seriesGate_matchIff_witness :
    (∀ t ∈ c1Tickets, t ≠ []) ∧ ((c1Results.map Prod.fst).Nodup)
    ∧ (∃ W, checkWinningTicketsV2 c1Results c1Tickets = some W ∧
        ∀ t ∈ c1Tickets, ∀ c : Char, t.head? = some c →
          ((lookupM c1Results seriesKey).head? ≠ some [c] → ∀ p, t ∉ lookupM W p)
          ∧ ((lookupM c1Results seriesKey).head? = some [c] → ∀ p, p ≠ seriesKey →
              (t ∈ lookupM W p ↔ isWinningTicket t (lookupM c1Results p) = true))) :=
  ⟨by decide, by decide,
   matcher_seriesGate_matchIff c1Results c1Tickets (by decide) (by decide)⟩

/-- Counterexample for C1 as stated: the first Series fragment "AB" has the
same leading character as the ticket "AB" and the fragment "B" stored under
tier "1st" is a substring of the ticket, yet the matcher returns the empty
winner map: the code compares the whole first Series fragment with the
one-character string of the ticket's first byte, not leading characters. -/
theorem matcher_leadingChar_cex :
    (("AB".toList : Str).head? =
      ((lookupM [("Series".toList, ["AB".toList]), ("1st".toList, ["B".toList])]
        seriesKey).headD []).head?)
    ∧ containsStr "AB".toList "B".toList = true
    ∧ checkWinningTicketsV2
        [("Series".toList, ["AB".toList]), ("1st".toList, ["B".toList])]
        ["AB".toList] = some [] := by decide
